import Mathlib

/- Shallow embedding of the forgeflare coding agent (Rust sources:
   src/api.rs, src/hooks.rs, src/main.rs, src/tools/mod.rs).

   Pure data and control logic are translated directly; external effects
   (HTTP transport, subprocess execution, the serde_json parser used on
   accumulated tool-input text) are modelled as explicit oracle
   parameters, so every theorem quantifies over their behaviour. -/

/-- JSON values as used through serde_json::Value in the source.
Numbers are modelled as integers: the program only ever reads integer
token counts out of JSON numbers. -/
inductive Json where
  | null
  | bool (b : Bool)
  | num (n : Int)
  | str (s : String)
  | arr (xs : List Json)
  | obj (fields : List (String × Json))
deriving Repr

/-- serde_json Value::is_null. -/
def Json.is_null : Json → Bool
  | Json.null => true
  | _ => false

/-- ContentBlock from api.rs (tagged enum Text / ToolUse / ToolResult). -/
inductive ContentBlock where
  | text (text : String)
  | toolUse (id : String) (name : String) (input : Json)
  | toolResult (tool_use_id : String) (content : String) (is_error : Option Bool)
deriving Repr

/-- Message from api.rs: a role string plus ordered content blocks. -/
structure Message where
  role : String
  content : List ContentBlock
deriving Repr

/-- StopReason from api.rs. -/
inductive StopReason where
  | endTurn
  | maxTokens
  | toolUse
deriving DecidableEq, Repr

/-- Usage counters from api.rs. -/
structure Usage where
  input_tokens : Nat
  output_tokens : Nat
  cache_creation_input_tokens : Nat
  cache_read_input_tokens : Nat
deriving Repr

/-- Usage::default(): all four counters zero. -/
def Usage.default : Usage := ⟨0, 0, 0, 0⟩

/-- Model of a reqwest transport error: the classifier only inspects
is_timeout() and is_connect(). -/
structure TransportError where
  is_timeout : Bool
  is_connect : Bool
deriving Repr

/-- AgentError from api.rs. The Api variant carries the transport-error
model; Json stands for serde_json::Error (its payload is never
inspected by the classifier). -/
inductive AgentError where
  | api (e : TransportError)
  | json
  | httpError (status : Nat) (retry_after : Option Nat) (body : String)
  | streamTransient (msg : String)
  | streamParse (msg : String)
deriving Repr

/-- ErrorClass from api.rs. -/
inductive ErrorClass where
  | transient
  | permanent
deriving DecidableEq, Repr

/-- classify_error from api.rs lines 34-52, translated arm by arm.
The Rust `s if s >= 500` match guard becomes the second if. -/
def classify_error : AgentError → ErrorClass
  | AgentError.httpError status _ _ =>
      if status = 429 ∨ status = 503 ∨ status = 529 then ErrorClass.transient
      else if 500 ≤ status then ErrorClass.transient
      else ErrorClass.permanent
  | AgentError.streamTransient _ => ErrorClass.transient
  | AgentError.streamParse _ => ErrorClass.permanent
  | AgentError.api e =>
      if e.is_timeout || e.is_connect then ErrorClass.transient
      else ErrorClass.permanent
  | AgentError.json => ErrorClass.permanent

/-- Hex digit table used by serde_json for control-character escapes. -/
def hexDigit (n : Nat) : Char :=
  if n < 10 then Char.ofNat (48 + n) else Char.ofNat (87 + n)

/-- serde_json string escaping, one character at a time: quote and
backslash are escaped, control characters become the short escapes or
a 6-byte \uXXXX sequence, everything else is emitted as is. -/
def escapeChar (c : Char) : List Char :=
  if c.toNat = 34 then "\\\"".data
  else if c.toNat = 92 then "\\\\".data
  else if c.toNat = 8 then "\\b".data
  else if c.toNat = 9 then "\\t".data
  else if c.toNat = 10 then "\\n".data
  else if c.toNat = 12 then "\\f".data
  else if c.toNat = 13 then "\\r".data
  else if c.toNat < 32 then "\\u00".data ++ [hexDigit (c.toNat / 16), hexDigit (c.toNat % 16)]
  else [c]

/-- serde_json serialization of a string: quoted and escaped. -/
def serializeStr (s : String) : List Char :=
  "\"".data ++ s.data.flatMap escapeChar ++ "\"".data

/-- serde_json compact serialization of a Value (object fields are
emitted in stored order, modelling the map iteration order). -/
def serializeJson : Json → List Char
  | Json.null => "null".data
  | Json.bool b => if b then "true".data else "false".data
  | Json.num n => (toString n).data
  | Json.str s => serializeStr s
  | Json.arr xs =>
      "[".data ++
        List.intercalate ",".data (xs.attach.map (fun x => serializeJson x.val)) ++
        "]".data
  | Json.obj fs =>
      "\x7b".data ++
        List.intercalate ",".data
          (fs.attach.map (fun f => serializeStr f.val.1 ++ ":".data ++ serializeJson f.val.2)) ++
        "\x7d".data
decreasing_by
  · have := List.sizeOf_lt_of_mem x.property
    simp at this ⊢
    omega
  · have h1 := List.sizeOf_lt_of_mem f.property
    have h2 : sizeOf f.val.2 < sizeOf f.val := by
      rcases f.val with ⟨a, b⟩
      simp
      try omega
    simp at h1 h2 ⊢
    omega

/-- serde serialization of a ContentBlock: internally tagged enum with
tag "type"; is_error is skipped when None. -/
def serializeBlock : ContentBlock → List Char
  | ContentBlock.text t =>
      "\x7b\"type\":\"text\",\"text\":".data ++ serializeStr t ++ "\x7d".data
  | ContentBlock.toolUse id name input =>
      "\x7b\"type\":\"tool_use\",\"id\":".data ++ serializeStr id ++
        ",\"name\":".data ++ serializeStr name ++
        ",\"input\":".data ++ serializeJson input ++ "\x7d".data
  | ContentBlock.toolResult tid content is_err =>
      "\x7b\"type\":\"tool_result\",\"tool_use_id\":".data ++ serializeStr tid ++
        ",\"content\":".data ++ serializeStr content ++
        (match is_err with
         | none => []
         | some b => ",\"is_error\":".data ++ (if b then "true".data else "false".data)) ++
        "\x7d".data

/-- serde serialization of a Message: role then content. -/
def serializeMessage (m : Message) : List Char :=
  "\x7b\"role\":".data ++ serializeStr m.role ++ ",\"content\":[".data ++
    List.intercalate ",".data (m.content.map serializeBlock) ++ "]\x7d".data

/-- Byte length of the UTF-8 encoding of a character list; this is
what Rust String::len returns on the serialized JSON. -/
def byteSize (cs : List Char) : Nat := (cs.map Char.utf8Size).sum

/-- serde_json::to_string(m).len() for one message. -/
def msgSize (m : Message) : Nat := byteSize (serializeMessage m)

/-- Total serialized size of the conversation (main.rs lines 82-85). -/
def convSize (messages : List Message) : Nat := (messages.map msgSize).sum

/-- CONTEXT_BUDGET_BYTES from main.rs. -/
def CONTEXT_BUDGET_BYTES : Nat := 720000

/-- MODEL_CONTEXT_TOKENS from main.rs. -/
def MODEL_CONTEXT_TOKENS : Nat := 200000

/-- TRIM_THRESHOLD from main.rs: 60% of the model context window. -/
def TRIM_THRESHOLD : Nat := MODEL_CONTEXT_TOKENS * 60 / 100

/-- The while loop of trim_conversation (main.rs lines 93-106): while
more than one message remains, break when first-plus-remainder fits
the budget, otherwise remove the front message and, if the new front
is an assistant message, remove it too. -/
def trimLoop (first : Message) : List Message → List Message
  | [] => []
  | [m] => [m]
  | m :: n :: rest =>
      if convSize (first :: m :: n :: rest) ≤ CONTEXT_BUDGET_BYTES then m :: n :: rest
      else if n.role = "assistant" then trimLoop first rest
      else trimLoop first (n :: rest)

/-- trim_conversation from main.rs lines 81-108: return unchanged when
within budget or at most two messages; otherwise detach the first
message, run the drop-from-front loop, and reinsert it at position 0. -/
def trim_conversation (messages : List Message) : List Message :=
  if convSize messages ≤ CONTEXT_BUDGET_BYTES ∨ messages.length ≤ 2 then messages
  else
    match messages with
    | [] => []
    | first :: rest => first :: trimLoop first rest

/-- trim_if_needed from main.rs lines 114-118. -/
def trim_if_needed (messages : List Message) (last_input_tokens : Nat) : List Message :=
  if last_input_tokens = 0 ∨ TRIM_THRESHOLD ≤ last_input_tokens then
    trim_conversation messages
  else messages

/-- C5: classify_error maps HTTP 429/503/529 and any status ≥ 500 to
Transient and every other (non-success) HTTP status to Permanent;
StreamTransient to Transient; StreamParse to Permanent; transport
timeout or connect failure to Transient and any other transport error
to Permanent; JSON decode faults to Permanent. -/
theorem classify_error_spec :
    (∀ status ra body, (status = 429 ∨ status = 503 ∨ status = 529 ∨ 500 ≤ status) →
      classify_error (AgentError.httpError status ra body) = ErrorClass.transient)
  ∧ (∀ status ra body, status ≠ 429 → status ≠ 503 → status ≠ 529 → status < 500 →
      classify_error (AgentError.httpError status ra body) = ErrorClass.permanent)
  ∧ (∀ msg, classify_error (AgentError.streamTransient msg) = ErrorClass.transient)
  ∧ (∀ msg, classify_error (AgentError.streamParse msg) = ErrorClass.permanent)
  ∧ (∀ e, (e.is_timeout = true ∨ e.is_connect = true) →
      classify_error (AgentError.api e) = ErrorClass.transient)
  ∧ (∀ e, e.is_timeout = false → e.is_connect = false →
      classify_error (AgentError.api e) = ErrorClass.permanent)
  ∧ classify_error AgentError.json = ErrorClass.permanent := by
  refine ⟨?_, ?_, ?_, ?_, ?_, ?_, rfl⟩
  · intro status ra body h
    simp only [classify_error]
    rcases h with h | h | h | h
    · simp [h]
    · simp [h]
    · simp [h]
    · split
      · rfl
      · simp [h]
  · intro status ra body h1 h2 h3 h4
    simp only [classify_error]
    rw [if_neg (by omega), if_neg (by omega)]
  · intro msg; rfl
  · intro msg; rfl
  · intro e h
    simp only [classify_error]
    rcases h with h | h <;> simp [h]
  · intro e h1 h2
    simp only [classify_error, h1, h2]
    rfl

/-- Witness for C5 at concrete inputs: 529 is transient (it is below
500, so only the explicit arm covers it), 404 is permanent, a timeout
transport error is transient. -/
theorem classify_error_spec_witness :
    ((529 : Nat) = 429 ∨ (529 : Nat) = 503 ∨ (529 : Nat) = 529 ∨ 500 ≤ 529)
    ∧ classify_error (AgentError.httpError 529 none "") = ErrorClass.transient
    ∧ classify_error (AgentError.httpError 404 none "x") = ErrorClass.permanent
    ∧ classify_error (AgentError.api ⟨true, false⟩) = ErrorClass.transient :=
  ⟨by decide,
   classify_error_spec.1 529 none "" (by decide),
   classify_error_spec.2.1 404 none "x" (by decide) (by decide) (by decide) (by decide),
   classify_error_spec.2.2.2.2.1 ⟨true, false⟩ (Or.inl rfl)⟩

/-- C6: byte-based trim runs iff last_input_tokens is 0 or at least
120,000 (60% of the 200,000-token context window); strictly between,
trim_if_needed leaves the conversation unchanged. -/
theorem trim_if_needed_spec :
    TRIM_THRESHOLD = 120000
  ∧ (∀ msgs last, (last = 0 ∨ 120000 ≤ last) →
      trim_if_needed msgs last = trim_conversation msgs)
  ∧ (∀ msgs last, 0 < last → last < 120000 → trim_if_needed msgs last = msgs) := by
  refine ⟨rfl, ?_, ?_⟩
  · intro msgs last h
    have h2 : last = 0 ∨ TRIM_THRESHOLD ≤ last := by
      simpa [TRIM_THRESHOLD, MODEL_CONTEXT_TOKENS] using h
    simp [trim_if_needed, h2]
  · intro msgs last h1 h2
    rw [trim_if_needed, if_neg]
    simp [TRIM_THRESHOLD, MODEL_CONTEXT_TOKENS]
    omega

/-- Witness for C6 at concrete inputs 0 and 119,999. -/
theorem trim_if_needed_spec_witness :
    trim_if_needed [] 0 = trim_conversation []
  ∧ trim_if_needed [] 119999 = []
  ∧ (0 : Nat) < 119999 ∧ 119999 < 120000 :=
  ⟨trim_if_needed_spec.2.1 [] 0 (Or.inl rfl),
   trim_if_needed_spec.2.2 [] 119999 (by decide) (by decide),
   by decide, by decide⟩

/-- C7: trim returns the conversation unchanged when the serialized
size is at most 720,000 bytes or there are at most 2 messages; and
whenever trim changes the conversation, the original first message is
still at position 0 of the result. -/
theorem trim_conversation_spec :
    (∀ msgs, convSize msgs ≤ 720000 → trim_conversation msgs = msgs)
  ∧ (∀ msgs : List Message, msgs.length ≤ 2 → trim_conversation msgs = msgs)
  ∧ (∀ msgs, trim_conversation msgs ≠ msgs →
      (trim_conversation msgs).head? = msgs.head?) := by
  refine ⟨?_, ?_, ?_⟩
  · intro msgs h
    simp [trim_conversation, CONTEXT_BUDGET_BYTES, h]
  · intro msgs h
    simp [trim_conversation, h]
  · intro msgs h
    by_cases hc : convSize msgs ≤ CONTEXT_BUDGET_BYTES ∨ msgs.length ≤ 2
    · exact absurd (by simp [trim_conversation, hc]) h
    · rw [trim_conversation.eq_def, if_neg hc]
      cases msgs with
      | nil => exact absurd (Or.inr (by simp)) hc
      | cons first rest => simp

/- Conversation that alternates strictly user/assistant starting
with a user message (spec section 3 invariant), as a Boolean check. -/
mutual

def altUser : List Message → Bool
  | [] => true
  | m :: rest => m.role == "user" && altAsst rest

def altAsst : List Message → Bool
  | [] => true
  | m :: rest => m.role == "assistant" && altUser rest

end

/-- A user text message whose serialization alone exceeds the 720,000
byte budget. -/
def bigText : String := String.mk (List.replicate 720001 'x')

/-- First conversation message for the trim counterexample. -/
def bigFirst : Message := ⟨"user", [ContentBlock.text bigText]⟩

/-- Small assistant message. -/
def asstHi : Message := ⟨"assistant", [ContentBlock.text "hi"]⟩

/-- Small user message. -/
def userOk : Message := ⟨"user", [ContentBlock.text "ok"]⟩

lemma escapeChar_x : escapeChar 'x' = ['x'] := rfl

lemma flatMap_escape_replicate (n : Nat) :
    (List.replicate n 'x').flatMap escapeChar = List.replicate n 'x' := by
  induction n with
  | zero => rfl
  | succ k ih => simp [List.replicate_succ, escapeChar_x, ih]

lemma byteSize_append (a b : List Char) :
    byteSize (a ++ b) = byteSize a + byteSize b := by
  simp [byteSize]

lemma byteSize_replicate_x (n : Nat) : byteSize (List.replicate n 'x') = n := by
  have h : Char.utf8Size 'x' = 1 := rfl
  simp [byteSize, List.map_replicate, h]

lemma byteSize_serializeStr_big : byteSize (serializeStr bigText) = 720003 := by
  have hdata : bigText.data = List.replicate 720001 'x' := rfl
  rw [serializeStr, hdata, flatMap_escape_replicate, byteSize_append, byteSize_append,
      byteSize_replicate_x]
  rfl

lemma byteSize_serializeBlock_big :
    byteSize (serializeBlock (ContentBlock.text bigText)) = 720003 + 23 := by
  rw [serializeBlock, byteSize_append, byteSize_append, byteSize_serializeStr_big]
  rfl

lemma msgSize_bigFirst : 720000 < msgSize bigFirst := by
  rw [msgSize, bigFirst]
  rw [serializeMessage]
  simp only [List.map_cons, List.map_nil]
  rw [show List.intercalate ",".data [serializeBlock (ContentBlock.text bigText)] =
      serializeBlock (ContentBlock.text bigText) by simp [List.intercalate]]
  rw [byteSize_append, byteSize_append, byteSize_append, byteSize_serializeBlock_big]
  omega

lemma convSize_expand (a b c : Message) :
    convSize [a, b, c] = msgSize a + msgSize b + msgSize c := by
  simp [convSize]
  ring

lemma convSize_cex_big : 720000 < convSize [bigFirst, asstHi, userOk] := by
  have h := msgSize_bigFirst
  rw [convSize_expand]
  omega

lemma trim_cex_eval :
    trim_conversation [bigFirst, asstHi, userOk] = [bigFirst, userOk] := by
  have hbig := convSize_cex_big
  have hcond : ¬ (convSize [bigFirst, asstHi, userOk] ≤ CONTEXT_BUDGET_BYTES ∨
      ([bigFirst, asstHi, userOk] : List Message).length ≤ 2) := by
    simp [CONTEXT_BUDGET_BYTES]
    omega
  rw [trim_conversation, if_neg hcond]
  show bigFirst :: trimLoop bigFirst [asstHi, userOk] = [bigFirst, userOk]
  simp only [trimLoop]
  rw [if_neg (by simp [CONTEXT_BUDGET_BYTES]; omega), if_neg (by decide)]

/-- C2 counterexample: the strictly alternating conversation
[user(big), assistant, user] exceeds the byte budget, so trim removes
the assistant message and reinserts the original first user message in
front of the remaining user message; the result [user, user] has a
user message directly following a user message. -/
theorem trim_alternation_cex :
    altUser [bigFirst, asstHi, userOk] = true
    ∧ trim_conversation [bigFirst, asstHi, userOk] = [bigFirst, userOk]
    ∧ altUser (trim_conversation [bigFirst, asstHi, userOk]) = false := by
  refine ⟨rfl, trim_cex_eval, ?_⟩
  rw [trim_cex_eval]
  rfl

lemma trimLoop_altUser :
    ∀ (first : Message) (rest : List Message), altUser rest = true →
      altUser (trimLoop first rest) = true := by
  have H : ∀ (k : Nat) (first : Message) (rest : List Message), rest.length ≤ k →
      altUser rest = true → altUser (trimLoop first rest) = true := by
    intro k
    induction k with
    | zero =>
      intro first rest hl ha
      cases rest with
      | nil => simpa [trimLoop] using ha
      | cons m t => simp at hl
    | succ k ih =>
      intro first rest hl ha
      match rest with
      | [] => simpa [trimLoop] using ha
      | [m] => simpa [trimLoop] using ha
      | m :: n :: rest' =>
        have hm : m.role = "user" ∧ n.role = "assistant" ∧ altUser rest' = true := by
          simp [altUser, altAsst] at ha
          exact ⟨ha.1, ha.2.1, ha.2.2⟩
        by_cases hs : convSize (first :: m :: n :: rest') ≤ CONTEXT_BUDGET_BYTES
        · simp only [trimLoop, if_pos hs]
          exact ha
        · simp only [trimLoop, if_neg hs, if_pos hm.2.1]
          exact ih first rest' (by simp at hl ⊢; omega) hm.2.2
  intro first rest
  exact H rest.length first rest le_rfl

/-- C2 (amended): for a strictly alternating conversation starting
with a user message, byte-based trim either returns it unchanged, or
returns the original first message followed by a tail that itself
alternates strictly starting with a user message.  In the second case
the result starts with two consecutive user messages whenever the tail
is nonempty, so strict alternation of the whole result does not hold
in general. -/
theorem trim_alternation_amended :
    ∀ msgs : List Message, altUser msgs = true →
      trim_conversation msgs = msgs ∨
      ((trim_conversation msgs).head? = msgs.head? ∧
        altUser (trim_conversation msgs).tail = true) := by
  intro msgs ha
  by_cases hc : convSize msgs ≤ CONTEXT_BUDGET_BYTES ∨ msgs.length ≤ 2
  · left
    simp [trim_conversation, hc]
  · right
    cases msgs with
    | nil => exact absurd (Or.inr (by simp)) hc
    | cons first rest =>
      cases rest with
      | nil => exact absurd (Or.inr (by simp)) hc
      | cons m rest2 =>
        cases rest2 with
        | nil => exact absurd (Or.inr (by simp)) hc
        | cons n rest' =>
          have hroles : first.role = "user" ∧ m.role = "assistant" ∧
              n.role = "user" ∧ altAsst rest' = true := by
            simp [altUser, altAsst] at ha
            exact ⟨ha.1, ha.2.1, ha.2.2.1, ha.2.2.2⟩
          have hsize : ¬ convSize (first :: m :: n :: rest') ≤ CONTEXT_BUDGET_BYTES :=
            fun h => hc (Or.inl h)
          rw [trim_conversation.eq_def, if_neg hc]
          refine ⟨by simp, ?_⟩
          show altUser (trimLoop first (m :: n :: rest')) = true
          simp only [trimLoop, if_neg hsize]
          rw [if_neg (by rw [hroles.2.2.1]; decide)]
          exact trimLoop_altUser first (n :: rest')
            (by simp [altUser, altAsst, hroles.2.2.1, hroles.2.2.2])

/-- Witness for C7: the empty conversation is under budget and a
one-message conversation is under the length bound (both unchanged);
the over-budget three-message conversation is changed and keeps its
first message at position 0. -/
theorem trim_conversation_spec_witness :
    convSize ([] : List Message) ≤ 720000
  ∧ trim_conversation [] = []
  ∧ ([asstHi] : List Message).length ≤ 2
  ∧ trim_conversation [asstHi] = [asstHi]
  ∧ trim_conversation [bigFirst, asstHi, userOk] ≠ [bigFirst, asstHi, userOk]
  ∧ (trim_conversation [bigFirst, asstHi, userOk]).head? = some bigFirst := by
  have hzero : convSize ([] : List Message) ≤ 720000 := by simp [convSize]
  have hne : trim_conversation [bigFirst, asstHi, userOk] ≠ [bigFirst, asstHi, userOk] := by
    rw [trim_cex_eval]
    intro h
    have h2 := congrArg List.length h
    simp at h2
  refine ⟨hzero, trim_conversation_spec.1 [] hzero, by simp,
    trim_conversation_spec.2.1 [asstHi] (by simp), hne, ?_⟩
  rw [trim_conversation_spec.2.2 [bigFirst, asstHi, userOk] hne]
  rfl

/-- Witness for C2's amended theorem at the concrete over-budget
conversation. -/
theorem trim_alternation_witness :
    altUser [bigFirst, asstHi, userOk] = true
    ∧ (trim_conversation [bigFirst, asstHi, userOk] = [bigFirst, asstHi, userOk] ∨
       ((trim_conversation [bigFirst, asstHi, userOk]).head? =
          ([bigFirst, asstHi, userOk] : List Message).head? ∧
         altUser (trim_conversation [bigFirst, asstHi, userOk]).tail = true)) :=
  ⟨rfl, trim_alternation_amended [bigFirst, asstHi, userOk] rfl⟩

/-- Test from the Rust code: a content block is a tool_use block. -/
def isToolUse : ContentBlock → Bool
  | ContentBlock.toolUse _ _ _ => true
  | _ => false

/-- recover_conversation from main.rs lines 123-148: pop a trailing
user message, then pop a trailing assistant message whose content is
entirely tool_use blocks together with the user message before it. -/
def recover_conversation (messages : List Message) : List Message :=
  let messages :=
    match messages.getLast? with
    | some last => if last.role = "user" then messages.dropLast else messages
    | none => messages
  match messages.getLast? with
  | some last =>
      if last.role = "assistant" then
        if last.content.all isToolUse then
          let messages := messages.dropLast
          match messages.getLast? with
          | some last2 => if last2.role = "user" then messages.dropLast else messages
          | none => messages
        else messages
      else messages
  | none => messages

/-- C10: a trailing assistant message with empty content passes the
all-tool_use test vacuously, so recover_conversation removes it
together with the user message preceding it. -/
theorem recover_empty_assistant (ms : List Message) (u : Message)
    (hu : u.role = "user") :
    recover_conversation (ms ++ [u, ⟨"assistant", []⟩]) = ms := by
  have h1 : ms ++ [u, (⟨"assistant", []⟩ : Message)] =
      (ms ++ [u]) ++ [(⟨"assistant", ([] : List ContentBlock)⟩ : Message)] := by
    simp
  rw [recover_conversation, h1]
  simp [List.getLast?_concat, List.dropLast_concat, hu]

/-- Witness for C10: a two-message conversation [user, empty assistant]
collapses to the empty conversation. -/
theorem recover_empty_assistant_witness :
    userOk.role = "user"
    ∧ recover_conversation [userOk, ⟨"assistant", []⟩] = [] :=
  ⟨rfl, recover_empty_assistant [] userOk rfl⟩

/-- The filter predicate of filter_null_input_tool_use: keep every
block except a tool_use whose input is null. -/
def keepBlock : ContentBlock → Bool
  | ContentBlock.toolUse _ _ input => !input.is_null
  | _ => true

/-- filter_null_input_tool_use from main.rs lines 157-176. -/
def filter_null_input_tool_use (blocks : List ContentBlock) : List ContentBlock :=
  let filtered := blocks.filter keepBlock
  if filtered.isEmpty then [ContentBlock.text "[Response truncated]"] else filtered

/-- MAX_CONTINUATIONS from main.rs. -/
def MAX_CONTINUATIONS : Nat := 3

/-- MaxTokensAction from main.rs lines 795-804. -/
inductive MaxTokensAction where
  | breakEmpty
  | dispatchTools
  | continueTurn
  | breakCapReached
deriving DecidableEq, Repr

/-- The is_empty test of classify_max_tokens (main.rs lines 808-809):
exactly one block and it is the Text placeholder. -/
def isPlaceholderOnly : List ContentBlock → Bool
  | [ContentBlock.text t] => t == "[Response truncated]"
  | _ => false

/-- classify_max_tokens from main.rs lines 806-825. -/
def classify_max_tokens (blocks : List ContentBlock) (continuation_count : Nat) :
    MaxTokensAction :=
  if isPlaceholderOnly blocks then MaxTokensAction.breakEmpty
  else if blocks.any isToolUse then MaxTokensAction.dispatchTools
  else if continuation_count < MAX_CONTINUATIONS then MaxTokensAction.continueTurn
  else MaxTokensAction.breakCapReached

/-- Outcome of the MaxTokens arm of run_turn (main.rs lines 445-481):
exit the loop with tag continuation_cap, fall through to tool dispatch,
or increment the counter and continue with an appended user message. -/
inductive MaxTokensOutcome where
  | exitCap (content : List ContentBlock)
  | dispatch (content : List ContentBlock)
  | continueLoop (new_count : Nat) (appended : Message) (content : List ContentBlock)
deriving Repr

/-- The continuation user message appended by run_turn. -/
def continuationMsg : Message :=
  ⟨"user", [ContentBlock.text "Continue from where you left off."]⟩

/-- The MaxTokens arm of run_turn: filter null-input tool_use blocks,
then branch on classify_max_tokens. -/
def maxTokensStep (blocks : List ContentBlock) (continuation_count : Nat) :
    MaxTokensOutcome :=
  let f := filter_null_input_tool_use blocks
  match classify_max_tokens f continuation_count with
  | MaxTokensAction.breakEmpty => MaxTokensOutcome.exitCap f
  | MaxTokensAction.dispatchTools => MaxTokensOutcome.dispatch f
  | MaxTokensAction.continueTurn =>
      MaxTokensOutcome.continueLoop (continuation_count + 1) continuationMsg f
  | MaxTokensAction.breakCapReached => MaxTokensOutcome.exitCap f

/-- C4 counterexample: an assistant response that genuinely consists of
the single text block "[Response truncated]" (nothing was filtered) is
text-only with continuation_count 0 < 3, so the claim prescribes the
continuation branch; the code instead classifies it as the empty
placeholder and exits with tag continuation_cap. -/
theorem max_tokens_step_cex :
    (filter_null_input_tool_use [ContentBlock.text "[Response truncated]"]).any isToolUse
      = false
    ∧ (0 : Nat) < 3
    ∧ maxTokensStep [ContentBlock.text "[Response truncated]"] 0 =
        MaxTokensOutcome.exitCap [ContentBlock.text "[Response truncated]"]
    ∧ maxTokensStep [ContentBlock.text "[Response truncated]"] 0 ≠
        MaxTokensOutcome.continueLoop 1 continuationMsg
          [ContentBlock.text "[Response truncated]"] := by
  refine ⟨rfl, by decide, rfl, ?_⟩
  intro h
  exact MaxTokensOutcome.noConfusion (rfl.symm.trans h)

lemma isPlaceholderOnly_iff (bs : List ContentBlock) :
    isPlaceholderOnly bs = true ↔ bs = [ContentBlock.text "[Response truncated]"] := by
  match bs with
  | [] => simp [isPlaceholderOnly]
  | [ContentBlock.text t] => simp [isPlaceholderOnly]
  | [ContentBlock.toolUse _ _ _] => simp [isPlaceholderOnly]
  | [ContentBlock.toolResult _ _ _] => simp [isPlaceholderOnly]
  | b1 :: b2 :: rest => simp [isPlaceholderOnly]

/-- C4 (amended): under MaxTokens, null-input tool_use blocks are
filtered out of the assistant content; if nothing survives the filter
the content becomes the single Text placeholder and the turn exits
with tag continuation_cap; if any tool_use block remains, dispatch
proceeds without touching continuation_count; if the content is
text-only, is not the single placeholder text, and the count is below
3, the counter is incremented and the user message "Continue from
where you left off." is appended; text-only at the cap (and also the
content equal to the single placeholder text, however it arose) exits
with tag continuation_cap. -/
theorem max_tokens_step_spec :
    ∀ (blocks : List ContentBlock) (count : Nat),
    (∀ id name, ContentBlock.toolUse id name Json.null ∉ filter_null_input_tool_use blocks)
  ∧ ((blocks.filter keepBlock).isEmpty = true →
      filter_null_input_tool_use blocks = [ContentBlock.text "[Response truncated]"]
      ∧ maxTokensStep blocks count =
          MaxTokensOutcome.exitCap [ContentBlock.text "[Response truncated]"])
  ∧ ((filter_null_input_tool_use blocks).any isToolUse = true →
      maxTokensStep blocks count =
        MaxTokensOutcome.dispatch (filter_null_input_tool_use blocks))
  ∧ ((filter_null_input_tool_use blocks).any isToolUse = false →
      filter_null_input_tool_use blocks ≠ [ContentBlock.text "[Response truncated]"] →
      count < 3 →
      maxTokensStep blocks count =
        MaxTokensOutcome.continueLoop (count + 1) continuationMsg
          (filter_null_input_tool_use blocks))
  ∧ ((filter_null_input_tool_use blocks).any isToolUse = false →
      filter_null_input_tool_use blocks ≠ [ContentBlock.text "[Response truncated]"] →
      3 ≤ count →
      maxTokensStep blocks count =
        MaxTokensOutcome.exitCap (filter_null_input_tool_use blocks)) := by
  intro blocks count
  refine ⟨?_, ?_, ?_, ?_, ?_⟩
  · intro id name hmem
    rw [filter_null_input_tool_use] at hmem
    by_cases he : (blocks.filter keepBlock).isEmpty = true
    · simp [he] at hmem
    · rw [if_neg he] at hmem
      have := List.of_mem_filter hmem
      simp [keepBlock, Json.is_null] at this
  · intro he
    have hf : filter_null_input_tool_use blocks = [ContentBlock.text "[Response truncated]"] := by
      simp [filter_null_input_tool_use, he]
    refine ⟨hf, ?_⟩
    rw [maxTokensStep]
    rw [hf]
    rfl
  · intro ht
    have hpe : isPlaceholderOnly (filter_null_input_tool_use blocks) = false := by
      rcases h : isPlaceholderOnly (filter_null_input_tool_use blocks) with _ | _
      · rfl
      · rw [isPlaceholderOnly_iff] at h
        rw [h] at ht
        simp [isToolUse] at ht
    rw [maxTokensStep, classify_max_tokens, if_neg (by simp [hpe]), if_pos ht]
  · intro ht hne hlt
    have hpe : isPlaceholderOnly (filter_null_input_tool_use blocks) = false := by
      rcases h : isPlaceholderOnly (filter_null_input_tool_use blocks) with _ | _
      · rfl
      · exact absurd (isPlaceholderOnly_iff _ |>.mp h) hne
    rw [maxTokensStep, classify_max_tokens, if_neg (by simp [hpe]), if_neg (by simp [ht]),
        if_pos (show count < MAX_CONTINUATIONS from hlt)]
  · intro ht hne hge
    have hpe : isPlaceholderOnly (filter_null_input_tool_use blocks) = false := by
      rcases h : isPlaceholderOnly (filter_null_input_tool_use blocks) with _ | _
      · rfl
      · exact absurd (isPlaceholderOnly_iff _ |>.mp h) hne
    rw [maxTokensStep, classify_max_tokens, if_neg (by simp [hpe]), if_neg (by simp [ht]),
        if_neg (show ¬ count < MAX_CONTINUATIONS by simp [MAX_CONTINUATIONS]; omega)]

/-- Witness for C4's amended theorem: a lone null-input tool_use
filters to the placeholder and exits; a valid Read tool_use dispatches;
plain text continues below the cap and exits at the cap. -/
theorem max_tokens_step_spec_witness :
    (ContentBlock.toolUse "a" "b" Json.null ∉
      filter_null_input_tool_use [ContentBlock.toolUse "id1" "Bash" Json.null])
  ∧ ([ContentBlock.toolUse "id1" "Bash" Json.null].filter keepBlock).isEmpty = true
  ∧ maxTokensStep [ContentBlock.toolUse "id1" "Bash" Json.null] 0 =
      MaxTokensOutcome.exitCap [ContentBlock.text "[Response truncated]"]
  ∧ maxTokensStep [ContentBlock.toolUse "tu1" "Read" (Json.obj [])] 0 =
      MaxTokensOutcome.dispatch
        (filter_null_input_tool_use [ContentBlock.toolUse "tu1" "Read" (Json.obj [])])
  ∧ maxTokensStep [ContentBlock.text "partial"] 0 =
      MaxTokensOutcome.continueLoop 1 continuationMsg
        (filter_null_input_tool_use [ContentBlock.text "partial"])
  ∧ maxTokensStep [ContentBlock.text "partial"] 3 =
      MaxTokensOutcome.exitCap (filter_null_input_tool_use [ContentBlock.text "partial"]) := by
  have hne : filter_null_input_tool_use [ContentBlock.text "partial"] ≠
      [ContentBlock.text "[Response truncated]"] := by
    show [ContentBlock.text "partial"] ≠ _
    simp
  exact ⟨(max_tokens_step_spec [ContentBlock.toolUse "id1" "Bash" Json.null] 0).1 "a" "b",
    rfl,
    ((max_tokens_step_spec [ContentBlock.toolUse "id1" "Bash" Json.null] 0).2.1 rfl).2,
    (max_tokens_step_spec [ContentBlock.toolUse "tu1" "Read" (Json.obj [])] 0).2.2.1 rfl,
    (max_tokens_step_spec [ContentBlock.text "partial"] 0).2.2.2.1 rfl hne (by decide),
    (max_tokens_step_spec [ContentBlock.text "partial"] 3).2.2.2.2 rfl hne (by decide)⟩

/-- HookConfig from hooks.rs. -/
structure HookConfig where
  event : String
  command : String
  match_tool : Option String
  phase : Option String
  timeout_ms : Option Nat
deriving Repr, DecidableEq

/-- DEFAULT_TIMEOUT_MS from hooks.rs. -/
def DEFAULT_TIMEOUT_MS : Nat := 5000

/-- matches_tool from hooks.rs lines 395-400. -/
def matches_tool (hook : HookConfig) (tool : String) : Bool :=
  match hook.match_tool with
  | some mt => mt == tool
  | none => true

/-- Combined oracle outcome of run_hook_subprocess plus the serde parse
of stdout into GuardOutput: the subprocess succeeded and its stdout
parsed (action, optional reason), or it failed in one of the four ways
handled by the guard loop. -/
inductive GuardExec where
  | parsed (action : String) (reason : Option String)
  | invalidJson
  | timeout
  | nonZeroExit (code : Int)
  | spawnError (msg : String)
deriving Repr

/-- PreToolResult from hooks.rs. -/
inductive PreToolResult where
  | allow
  | block (reason : String) (blocked_by : String)
deriving Repr

/-- The block_reason a guard hook produces, or none when the hook lets
the tool pass; the match arms mirror hooks.rs lines 157-207.  A
timeout reports the timeout actually passed to the subprocess
(timeout_ms or the 5000ms default). -/
def guardBlockReason (h : HookConfig) : GuardExec → Option String
  | GuardExec.parsed action reason =>
      if action == "block" then some (reason.getD "no reason provided") else none
  | GuardExec.invalidJson =>
      some ("hook failed: " ++ h.command ++ " returned invalid JSON (tool blocked by default)")
  | GuardExec.timeout =>
      some ("hook failed: " ++ h.command ++ " timed out after " ++
        toString (h.timeout_ms.getD DEFAULT_TIMEOUT_MS) ++ "ms (tool blocked by default)")
  | GuardExec.nonZeroExit code =>
      some ("hook failed: " ++ h.command ++ " exited with code " ++ toString code ++
        " (tool blocked by default)")
  | GuardExec.spawnError msg =>
      some ("hook failed: " ++ h.command ++ " spawn error: " ++ msg ++
        " (tool blocked by default)")

/-- The guard hooks that run for a tool (hooks.rs lines 130-139):
event PreToolUse, phase guard or unset, and a tool match. -/
def guardHooksFor (hooks : List HookConfig) (tool : String) : List HookConfig :=
  hooks.filter (fun h =>
    h.event == "PreToolUse" && (h.phase.getD "guard") == "guard" && matches_tool h tool)

/-- The guard loop of run_pre_tool_use: the first hook that blocks or
fails decides (blocked_by, block_reason); the loop breaks there. -/
def runGuardPhase (exec : HookConfig → GuardExec) : List HookConfig → Option (String × String)
  | [] => none
  | h :: rest =>
      match guardBlockReason h (exec h) with
      | some reason => some (h.command, reason)
      | none => runGuardPhase exec rest

/-- Character-list prefix test. -/
def hasPrefixChars : List Char → List Char → Bool
  | [], _ => true
  | _ :: _, [] => false
  | c :: cs, d :: ds => c == d && hasPrefixChars cs ds

/-- Rust str::starts_with, as a structural check on the characters. -/
def strStartsWith (s pre : String) : Bool := hasPrefixChars pre.data s.data

/-- run_pre_tool_use from hooks.rs lines 123-256.  The observe phase
(lines 210-244) runs fail-open, is pure-logging and never changes the
returned outcome, so it does not appear in the pure model.  Reasons
starting with "hook failed:" pass through verbatim; others are wrapped
as "blocked by cmd: reason" (lines 246-255). -/
def run_pre_tool_use (hooks : List HookConfig) (exec : HookConfig → GuardExec)
    (tool : String) : PreToolResult :=
  match runGuardPhase exec (guardHooksFor hooks tool) with
  | none => PreToolResult.allow
  | some (blocked_by, block_reason) =>
      let reason :=
        if strStartsWith block_reason "hook failed:" then block_reason
        else "blocked by " ++ blocked_by ++ ": " ++ block_reason
      PreToolResult.block reason blocked_by

lemma runGuardPhase_none (exec : HookConfig → GuardExec) :
    ∀ l : List HookConfig, (∀ h ∈ l, guardBlockReason h (exec h) = none) →
      runGuardPhase exec l = none := by
  intro l
  induction l with
  | nil => intro _; rfl
  | cons h rest ih =>
      intro hall
      rw [runGuardPhase, hall h (by simp)]
      exact ih (fun g hg => hall g (by simp [hg]))

lemma runGuardPhase_first (exec : HookConfig → GuardExec) :
    ∀ (gpre : List HookConfig) (h : HookConfig) (gpost : List HookConfig) (reason : String),
      (∀ g ∈ gpre, guardBlockReason g (exec g) = none) →
      guardBlockReason h (exec h) = some reason →
      runGuardPhase exec (gpre ++ h :: gpost) = some (h.command, reason) := by
  intro gpre
  induction gpre with
  | nil =>
      intro h gpost reason _ hh
      rw [List.nil_append, runGuardPhase, hh]
  | cons g rest ih =>
      intro h gpost reason hpre hh
      rw [List.cons_append, runGuardPhase, hpre g (by simp)]
      exact ih h gpost reason (fun g2 hg2 => hpre g2 (by simp [hg2])) hh

/-- C1: the PreToolUse guard phase is fail-closed.  When every matching
guard hook neither blocks nor fails, the outcome is Allow.  When the
matching guard hooks split as gpre ++ h :: gpost with every hook of
gpre passing and h blocking or failing, the outcome is Block decided by
h alone — any oracle that agrees on gpre and h produces the same Block,
so the hooks after h never run — with the reason passed through
verbatim when it starts with "hook failed:" and otherwise wrapped as
"blocked by cmd: reason". -/
theorem run_pre_tool_use_spec :
    ∀ (hooks : List HookConfig) (tool : String) (exec exec2 : HookConfig → GuardExec),
    ((∀ h ∈ guardHooksFor hooks tool, guardBlockReason h (exec h) = none) →
      run_pre_tool_use hooks exec tool = PreToolResult.allow)
  ∧ (∀ (gpre : List HookConfig) (h : HookConfig) (gpost : List HookConfig) (reason : String),
      guardHooksFor hooks tool = gpre ++ h :: gpost →
      (∀ g ∈ gpre, guardBlockReason g (exec g) = none) →
      guardBlockReason h (exec h) = some reason →
      (∀ g ∈ gpre, exec2 g = exec g) →
      exec2 h = exec h →
      run_pre_tool_use hooks exec2 tool =
        PreToolResult.block
          (if strStartsWith reason "hook failed:" then reason
           else "blocked by " ++ h.command ++ ": " ++ reason)
          h.command) := by
  intro hooks tool exec exec2
  constructor
  · intro hall
    rw [run_pre_tool_use, runGuardPhase_none exec _ hall]
  · intro gpre h gpost reason hsplit hpre hh hagree hagreeh
    have hfirst : runGuardPhase exec2 (guardHooksFor hooks tool) = some (h.command, reason) := by
      rw [hsplit]
      exact runGuardPhase_first exec2 gpre h gpost reason
        (fun g hg => by rw [hagree g hg]; exact hpre g hg)
        (by rw [hagreeh]; exact hh)
    rw [run_pre_tool_use, hfirst]

/-- Guard hook configuration used in the C1 witness. -/
def hookA : HookConfig := ⟨"PreToolUse", "check-args.sh", none, none, none⟩

/-- Second guard hook used in the C1 witness. -/
def hookB : HookConfig := ⟨"PreToolUse", "lint.sh", none, some "guard", none⟩

/-- Oracle for the C1 witness: the first hook allows, the second
returns invalid JSON. -/
def execW : HookConfig → GuardExec :=
  fun h => if h.command == "check-args.sh" then GuardExec.parsed "allow" none
           else GuardExec.invalidJson

set_option maxRecDepth 8192 in
/-- Witness for C1: with an allowing first guard and a second guard
returning invalid JSON, the outcome is a Block whose failure-typed
reason passes through verbatim; and with an all-allowing oracle the
outcome is Allow. -/
theorem run_pre_tool_use_spec_witness :
    run_pre_tool_use [hookA, hookB] execW "Bash" =
      PreToolResult.block
        "hook failed: lint.sh returned invalid JSON (tool blocked by default)" "lint.sh"
    ∧ run_pre_tool_use [hookA] execW "Bash" = PreToolResult.allow := by
  constructor
  · have h := (run_pre_tool_use_spec [hookA, hookB] "Bash" execW execW).2
      [hookA] hookB []
      "hook failed: lint.sh returned invalid JSON (tool blocked by default)"
      rfl
      (by intro g hg; simp at hg; rw [hg]; rfl)
      rfl
      (by intro g hg; rfl)
      rfl
    exact h
  · exact (run_pre_tool_use_spec [hookA] "Bash" execW execW).1
      (by intro g hg; simp [guardHooksFor] at hg; rw [hg.1]; rfl)

/-- Combined oracle outcome of run_hook_subprocess plus the serde
parse of stdout into PostOutput for a PostToolUse hook: parsed output,
invalid JSON, or a subprocess failure (timeout, non-zero exit, spawn
error) — the last two are logged and otherwise ignored (fail-open). -/
inductive PostExec where
  | output (action : String) (signal : Option String) (reason : Option String)
  | invalidJson
  | hookError
deriving Repr

/-- PostToolResult from hooks.rs. -/
inductive PostToolResult where
  | Continue
  | Signal (signal : String) (reason : String)
deriving Repr, DecidableEq

/-- Observation from hooks.rs. -/
structure Observation where
  signal : String
  reason : String
  tool_iterations : Nat
deriving Repr, DecidableEq

/-- The matching PostToolUse hooks (hooks.rs lines 266-271). -/
def postMatching (hooks : List HookConfig) (tool : String) : List HookConfig :=
  hooks.filter (fun h => h.event == "PostToolUse" && matches_tool h tool)

/-- The signal a PostToolUse hook contributes, or none: parsed output
with action "signal" yields (signal or "unknown", reason or
"no reason"); anything else — other actions, invalid JSON, subprocess
failure — contributes nothing (hooks.rs lines 296-324). -/
def signalOf : PostExec → Option (String × String)
  | PostExec.output action sig reason =>
      if action == "signal" then some (sig.getD "unknown", reason.getD "no reason") else none
  | PostExec.invalidJson => none
  | PostExec.hookError => none

/-- The hook loop of run_post_tool_use (hooks.rs lines 282-325): every
hook runs; each signal is pushed onto the observation list; the first
signal is remembered as the outcome. -/
def runPostLoop (exec : HookConfig → PostExec) (ti : Nat) :
    List HookConfig → Option (String × String) × List Observation
  | [] => (none, [])
  | h :: rest =>
      match signalOf (exec h) with
      | some (s, r) =>
          let tail := runPostLoop exec ti rest
          (some (s, r), ⟨s, r, ti⟩ :: tail.2)
      | none => runPostLoop exec ti rest

/-- run_post_tool_use from hooks.rs lines 258-340, returning the
outcome together with the observations recorded to the convergence
file (the atomic file write itself is I/O and outside the model; the
result-string truncation only affects the hook's stdin, which the exec
oracle abstracts). -/
def run_post_tool_use (hooks : List HookConfig) (exec : HookConfig → PostExec)
    (tool : String) (tool_iterations : Nat) : PostToolResult × List Observation :=
  let matching := postMatching hooks tool
  if matching.isEmpty then (PostToolResult.Continue, [])
  else
    let res := runPostLoop exec tool_iterations matching
    (match res.1 with
     | some (s, r) => PostToolResult.Signal s r
     | none => PostToolResult.Continue,
     res.2)

lemma runPostLoop_char (exec : HookConfig → PostExec) (ti : Nat) :
    ∀ l : List HookConfig,
      (runPostLoop exec ti l).2 =
        l.filterMap (fun h => (signalOf (exec h)).map (fun sr => (⟨sr.1, sr.2, ti⟩ : Observation)))
      ∧ (runPostLoop exec ti l).1 = (l.filterMap (fun h => signalOf (exec h))).head? := by
  intro l
  induction l with
  | nil => exact ⟨rfl, rfl⟩
  | cons h rest ih =>
      rcases hs : signalOf (exec h) with _ | ⟨s, r⟩
      · simpa [runPostLoop, hs, List.filterMap_cons] using ih
      · simp [runPostLoop, hs, List.filterMap_cons, ih.1, ih.2]

/-- C8: run_post_tool_use runs every matching PostToolUse hook in
configuration order regardless of individual hook failures: the
recorded observations are exactly the signals of all matching hooks in
order (a failing hook contributes nothing but does not stop later
hooks from contributing); the outcome is Signal of the first signal in
configuration order, later signals changing nothing; and when no hook
signals the outcome is Continue. -/
theorem run_post_tool_use_spec :
    ∀ (hooks : List HookConfig) (exec : HookConfig → PostExec) (tool : String) (ti : Nat),
      (run_post_tool_use hooks exec tool ti).2 =
        (postMatching hooks tool).filterMap
          (fun h => (signalOf (exec h)).map (fun sr => (⟨sr.1, sr.2, ti⟩ : Observation)))
    ∧ (run_post_tool_use hooks exec tool ti).1 =
        (match ((postMatching hooks tool).filterMap (fun h => signalOf (exec h))).head? with
         | some sr => PostToolResult.Signal sr.1 sr.2
         | none => PostToolResult.Continue) := by
  intro hooks exec tool ti
  by_cases he : (postMatching hooks tool).isEmpty = true
  · have hnil : postMatching hooks tool = [] := by
      simpa [List.isEmpty_iff] using he
    rw [run_post_tool_use]
    simp [hnil]
  · have hchar := runPostLoop_char exec ti (postMatching hooks tool)
    rw [run_post_tool_use]
    simp only [he]
    rw [if_neg (by simp [he])]
    refine ⟨hchar.1, ?_⟩
    rw [hchar.2]
    cases (List.filterMap (fun h => signalOf (exec h)) (postMatching hooks tool)).head? with
    | none => rfl
    | some sr =>
        rcases sr with ⟨s, r⟩
        rfl

/-- ToolEffect from tools/mod.rs. -/
inductive ToolEffect where
  | Pure
  | Mutating
deriving DecidableEq, Repr

/-- tool_effect from tools/mod.rs lines 126-131: Read, Glob, Grep are
pure; Bash, Edit and every unknown tool are mutating. -/
def tool_effect (name : String) : ToolEffect :=
  if name == "Read" || name == "Glob" || name == "Grep" then ToolEffect.Pure
  else ToolEffect.Mutating

/-- The all-pure batch classification of run_turn (main.rs lines
496-499): non-empty and every tool pure. -/
def allPure (tool_uses : List (String × String × Json)) : Bool :=
  !tool_uses.isEmpty && tool_uses.all (fun e => tool_effect e.2.1 == ToolEffect.Pure)

/-- MAX_CONSECUTIVE_BLOCKS from main.rs. -/
def MAX_CONSECUTIVE_BLOCKS : Nat := 3

/-- MAX_TOTAL_BLOCKS from main.rs. -/
def MAX_TOTAL_BLOCKS : Nat := 10

/-- Oracles for one dispatch batch: the PreToolUse hook outcome per
(name, input), the tool invocation dispatch_tool (Ok output or Err
message), and the PostToolUse hook outcome. -/
structure DispatchEnv where
  pre : String → Json → PreToolResult
  invoke : String → Json → Except String String
  post : String → Json → String → Bool → PostToolResult

/-- State threaded through the sequential dispatch loop of run_turn
(main.rs lines 663-747). -/
structure SeqOut where
  results : List ContentBlock
  consecutive : Nat
  total : Nat
  signalBreak : Bool
  tripped : Option String
deriving Repr

/-- The sequential dispatch path (main.rs lines 663-747): null-input
blocks are skipped; a Block appends an error ToolResult, bumps both
counters and may trip a threshold (consecutive checked before total);
an Allow resets the consecutive counter, invokes the tool, runs the
post hook (a Signal latches signalBreak) and appends the result. -/
def seqLoop (env : DispatchEnv) :
    List (String × String × Json) → Nat → Nat → Bool → SeqOut
  | [], c, t, sb => ⟨[], c, t, sb, none⟩
  | (id, name, input) :: rest, c, t, sb =>
      if input.is_null then seqLoop env rest c t sb
      else
        match env.pre name input with
        | PreToolResult.block reason _ =>
            if MAX_CONSECUTIVE_BLOCKS ≤ c + 1 then
              ⟨[ContentBlock.toolResult id reason (some true)], c + 1, t + 1, sb,
                some "block_limit_consecutive"⟩
            else if MAX_TOTAL_BLOCKS ≤ t + 1 then
              ⟨[ContentBlock.toolResult id reason (some true)], c + 1, t + 1, sb,
                some "block_limit_total"⟩
            else
              let out := seqLoop env rest (c + 1) (t + 1) sb
              ⟨ContentBlock.toolResult id reason (some true) :: out.results,
                out.consecutive, out.total, out.signalBreak, out.tripped⟩
        | PreToolResult.allow =>
            let invoked :=
              match env.invoke name input with
              | Except.ok output => (output, false)
              | Except.error err => (err, true)
            let sb2 :=
              match env.post name input invoked.1 invoked.2 with
              | PostToolResult.Signal _ _ => true
              | PostToolResult.Continue => sb
            let out := seqLoop env rest 0 t sb2
            ⟨ContentBlock.toolResult id invoked.1
                (if invoked.2 then some true else none) :: out.results,
              out.consecutive, out.total, out.signalBreak, out.tripped⟩

/-- State produced by the first pass of the parallel dispatch path
(main.rs lines 505-580): slots already written (null-input and blocked
entries), indices flagged blocked, workers spawned, and the threshold
state. -/
structure ParPhase1Out where
  slots : List (Nat × ContentBlock)
  blocked : List Nat
  spawned : List (Nat × (String × String × Json))
  tripped : Option String
  consecutive : Nat
  total : Nat
deriving Repr

/-- First pass of the parallel path over the enumerated batch: a
null-input block writes an error ToolResult into its slot; a Block
writes an error slot, flags the index and may trip a threshold
(stopping the iteration); an Allow resets the consecutive counter and
spawns a worker for the slot. -/
def parLoop (env : DispatchEnv) :
    List (Nat × (String × String × Json)) → Nat → Nat → ParPhase1Out
  | [], c, t => ⟨[], [], [], none, c, t⟩
  | (i, (id, name, input)) :: rest, c, t =>
      if input.is_null then
        let out := parLoop env rest c t
        ⟨(i, ContentBlock.toolResult id "null input (truncated tool_use)" (some true))
            :: out.slots,
          out.blocked, out.spawned, out.tripped, out.consecutive, out.total⟩
      else
        match env.pre name input with
        | PreToolResult.block reason _ =>
            if MAX_CONSECUTIVE_BLOCKS ≤ c + 1 then
              ⟨[(i, ContentBlock.toolResult id reason (some true))], [i], [],
                some "block_limit_consecutive", c + 1, t + 1⟩
            else if MAX_TOTAL_BLOCKS ≤ t + 1 then
              ⟨[(i, ContentBlock.toolResult id reason (some true))], [i], [],
                some "block_limit_total", c + 1, t + 1⟩
            else
              let out := parLoop env rest (c + 1) (t + 1)
              ⟨(i, ContentBlock.toolResult id reason (some true)) :: out.slots,
                i :: out.blocked, out.spawned, out.tripped, out.consecutive, out.total⟩
        | PreToolResult.allow =>
            let out := parLoop env rest 0 t
            ⟨out.slots, out.blocked, (i, (id, name, input)) :: out.spawned,
              out.tripped, out.consecutive, out.total⟩

/-- The worker body (main.rs lines 564-576): invoke the tool and build
the ToolResult. -/
def invokeBlock (env : DispatchEnv) (id name : String) (input : Json) : ContentBlock :=
  match env.invoke name input with
  | Except.ok output => ContentBlock.toolResult id output none
  | Except.error err => ContentBlock.toolResult id err (some true)

/-- Joining the spawned workers fills the remaining slots (main.rs
lines 604-623). -/
def fillSlots (env : DispatchEnv) (out : ParPhase1Out) : List (Nat × ContentBlock) :=
  out.slots ++ out.spawned.map (fun s => (s.1, invokeBlock env s.2.1 s.2.2.1 s.2.2.2))

/-- The parallel path result list: none when a threshold tripped (the
batch is discarded), otherwise the slots in index order (the .getD
default models the Rust slot unwrap, which cannot fire on a completed
batch). -/
def parallelResults (env : DispatchEnv) (tool_uses : List (String × String × Json))
    (c0 t0 : Nat) : Option (List ContentBlock) :=
  let out := parLoop env tool_uses.enum c0 t0
  if out.tripped.isSome then none
  else
    some ((List.range tool_uses.length).map (fun i =>
      ((fillSlots env out).lookup i).getD (ContentBlock.text "unfilled slot")))

/-- The tool_use_id of a ToolResult block. -/
def toolResultId : ContentBlock → Option String
  | ContentBlock.toolResult tid _ _ => some tid
  | _ => none

/-- Dispatch oracle where every hook allows, every tool succeeds and no
post hook signals. -/
def envAllow : DispatchEnv :=
  ⟨fun _ _ => PreToolResult.allow,
   fun _ _ => Except.ok "ok",
   fun _ _ _ _ => PostToolResult.Continue⟩

/-- C3 counterexample: a single pure tool with null input classifies
all-pure, so the parallel path runs; there the null-input block is NOT
skipped — it contributes an error ToolResult "null input (truncated
tool_use)" to the batch results. -/
theorem dispatch_null_input_cex :
    tool_effect "Read" = ToolEffect.Pure
    ∧ allPure [("id1", "Read", Json.null)] = true
    ∧ parallelResults envAllow [("id1", "Read", Json.null)] 0 0 =
        some [ContentBlock.toolResult "id1" "null input (truncated tool_use)" (some true)] :=
  ⟨rfl, rfl, rfl⟩

/-- C3 (amended): during tool dispatch the two paths treat null-input
ToolUse blocks differently.  On the sequential path they are skipped:
every ToolResult produced comes from a batch entry whose input is not
null.  On the all-pure parallel path they are not skipped: each
null-input entry has an error ToolResult
"null input (truncated tool_use)" written into its slot (whenever the
batch completes without tripping a block threshold, these slots are
part of the results appended after the batch). -/
theorem dispatch_null_input_amended :
    (∀ (env : DispatchEnv) (l : List (String × String × Json)) (c t : Nat) (sb : Bool),
      ∀ r ∈ (seqLoop env l c t sb).results,
        ∃ id name input, (id, name, input) ∈ l ∧ input.is_null = false ∧
          toolResultId r = some id)
  ∧ (∀ (env : DispatchEnv) (l : List (Nat × (String × String × Json))) (c t : Nat)
        (i : Nat) (id name : String),
      (i, (id, name, Json.null)) ∈ l →
      (parLoop env l c t).tripped = none →
      (i, ContentBlock.toolResult id "null input (truncated tool_use)" (some true))
        ∈ (parLoop env l c t).slots) := by
  constructor
  · intro env l
    induction l with
    | nil =>
        intro c t sb r hr
        simp [seqLoop] at hr
    | cons e rest ih =>
        rcases e with ⟨id, name, input⟩
        intro c t sb r hr
        by_cases hnull : input.is_null = true
        · rw [seqLoop, if_pos hnull] at hr
          obtain ⟨id2, name2, input2, hmem, hn2, hid2⟩ := ih c t sb r hr
          exact ⟨id2, name2, input2, by simp [hmem], hn2, hid2⟩
        · have hnf : input.is_null = false := by
            cases h : input.is_null
            · rfl
            · exact absurd h hnull
          rw [seqLoop, if_neg hnull] at hr
          rcases hpre : env.pre name input with _ | ⟨reason, bby⟩ <;>
            simp only [hpre] at hr
          · simp only [List.mem_cons] at hr
            rcases hr with hr | hr
            · exact ⟨id, name, input, by simp, hnf, by rw [hr]; rfl⟩
            · obtain ⟨id2, name2, input2, hmem, hn2, hid2⟩ := ih 0 t _ r hr
              exact ⟨id2, name2, input2, by simp [hmem], hn2, hid2⟩
          · by_cases hc : MAX_CONSECUTIVE_BLOCKS ≤ c + 1
            · rw [if_pos hc] at hr
              simp only [List.mem_singleton] at hr
              exact ⟨id, name, input, by simp, hnf, by rw [hr]; rfl⟩
            · rw [if_neg hc] at hr
              by_cases ht : MAX_TOTAL_BLOCKS ≤ t + 1
              · rw [if_pos ht] at hr
                simp only [List.mem_singleton] at hr
                exact ⟨id, name, input, by simp, hnf, by rw [hr]; rfl⟩
              · rw [if_neg ht] at hr
                simp only [List.mem_cons] at hr
                rcases hr with hr | hr
                · exact ⟨id, name, input, by simp, hnf, by rw [hr]; rfl⟩
                · obtain ⟨id2, name2, input2, hmem, hn2, hid2⟩ := ih (c + 1) (t + 1) sb r hr
                  exact ⟨id2, name2, input2, by simp [hmem], hn2, hid2⟩
  · intro env l
    induction l with
    | nil =>
        intro c t i id name hmem
        simp at hmem
    | cons e rest ih =>
        rcases e with ⟨j, jid, jname, jinput⟩
        intro c t i id name hmem htrip
        rcases List.mem_cons.mp hmem with hhead | htail
        · obtain ⟨h1, h2, h3, h4⟩ : i = j ∧ id = jid ∧ name = jname ∧ Json.null = jinput := by
            simpa [Prod.ext_iff] using hhead
          subst h1
          subst h2
          subst h3
          subst h4
          rw [parLoop, if_pos (show Json.null.is_null = true from rfl)]
          simp
        · by_cases hnull : jinput.is_null = true
          · rw [parLoop, if_pos hnull] at htrip ⊢
            simp only [List.mem_cons]
            exact Or.inr (ih c t i id name htail htrip)
          · rw [parLoop, if_neg hnull] at htrip ⊢
            rcases hpre : env.pre jname jinput with _ | ⟨reason, bby⟩ <;>
              simp only [hpre] at htrip ⊢
            · exact ih 0 t i id name htail htrip
            · by_cases hc : MAX_CONSECUTIVE_BLOCKS ≤ c + 1
              · rw [if_pos hc] at htrip
                simp at htrip
              · rw [if_neg hc] at htrip ⊢
                by_cases ht2 : MAX_TOTAL_BLOCKS ≤ t + 1
                · rw [if_pos ht2] at htrip
                  simp at htrip
                · rw [if_neg ht2] at htrip ⊢
                  simp only [List.mem_cons]
                  exact Or.inr (ih (c + 1) (t + 1) i id name htail htrip)

/-- Witness for C3's amended theorem: a sequential batch with one
valid Bash call yields exactly the invoke result (from a non-null
entry), and a parallel batch with one null-input Read has the error
ToolResult in its slot. -/
theorem dispatch_null_input_amended_witness :
    (∃ id name input, (id, name, input) ∈ [("id2", "Bash", Json.obj [])] ∧
        input.is_null = false ∧
        toolResultId (ContentBlock.toolResult "id2" "ok" none) = some id)
    ∧ (0, ContentBlock.toolResult "id1" "null input (truncated tool_use)" (some true)) ∈
        (parLoop envAllow [(0, ("id1", "Read", Json.null))] 0 0).slots :=
  ⟨dispatch_null_input_amended.1 envAllow [("id2", "Bash", Json.obj [])] 0 0 false
      (ContentBlock.toolResult "id2" "ok" none)
      (show _ ∈ [ContentBlock.toolResult "id2" "ok" none] by simp),
   dispatch_null_input_amended.2 envAllow [(0, ("id1", "Read", Json.null))] 0 0 0 "id1" "Read"
      (by simp) rfl⟩

/-- serde_json Value indexing parsed["key"]: Null when the value is
not an object or the key is missing. -/
def Json.get (j : Json) (key : String) : Json :=
  match j with
  | Json.obj fields =>
      match fields.find? (fun f => f.1 == key) with
      | some f => f.2
      | none => Json.null
  | _ => Json.null

/-- serde_json Value::get: None when the value is not an object or the
key is missing. -/
def Json.getOpt (j : Json) (key : String) : Option Json :=
  match j with
  | Json.obj fields => (fields.find? (fun f => f.1 == key)).map (fun f => f.2)
  | _ => none

/-- serde_json Value::as_str. -/
def Json.as_str : Json → Option String
  | Json.str s => some s
  | _ => none

/-- serde_json Value::as_u64 (our numbers are integers; non-negative
ones convert). -/
def Json.as_u64 : Json → Option Nat
  | Json.num n => if 0 ≤ n then some n.toNat else none
  | _ => none

/-- The accumulation state of parse_sse_stream (api.rs lines 196-203):
content blocks, the last stop_reason seen, usage counters, and the
per-index tool-input JSON buffers (the HashMap modelled as an
association list). -/
structure DecoderState where
  content_blocks : List ContentBlock
  stop_reason : Option StopReason
  usage : Usage
  tool_input_bufs : List (Nat × String)
deriving Repr

/-- The initial decoder state. -/
def initDecoderState : DecoderState := ⟨[], none, Usage.default, []⟩

/-- HashMap::insert for the buffer map (replaces any old binding). -/
def bufsInsert (bufs : List (Nat × String)) (idx : Nat) (v : String) : List (Nat × String) :=
  (idx, v) :: bufs.filter (fun p => !(p.1 == idx))

/-- HashMap::get_mut + push_str: append to the buffer at idx when it
exists, otherwise do nothing. -/
def bufsAppend (bufs : List (Nat × String)) (idx : Nat) (pj : String) : List (Nat × String) :=
  bufs.map (fun p => if p.1 == idx then (p.1, p.2 ++ pj) else p)

/-- Update the content block at an index when present (Vec::get_mut). -/
def updateAt (blocks : List ContentBlock) (idx : Nat) (f : ContentBlock → ContentBlock) :
    List ContentBlock :=
  match blocks, idx with
  | [], _ => []
  | b :: rest, 0 => f b :: rest
  | b :: rest, i + 1 => b :: updateAt rest i f

/-- One step of the event loop of parse_sse_stream (api.rs lines
227-331), applied to the parsed JSON payload of one SSE data event.
The SSE framing, the [DONE] skip and the silent skip of payloads that
fail to parse (lines 211-225) happen before this list is formed; the
serde_json parse used on an accumulated tool-input buffer is the
parseJson oracle.  The text-delta streaming callback is effect-only
and does not appear in the state. -/
def processEvent (parseJson : String → Option Json) (st : DecoderState) (parsed : Json) :
    Except AgentError DecoderState :=
  let event_type := ((parsed.get "type").as_str).getD ""
  if event_type == "message_start" then
    match (parsed.getOpt "message").bind (fun m => m.getOpt "usage") with
    | some u =>
        let newUsage : Usage :=
          { st.usage with
            input_tokens := ((u.get "input_tokens").as_u64).getD 0,
            cache_creation_input_tokens := ((u.get "cache_creation_input_tokens").as_u64).getD 0,
            cache_read_input_tokens := ((u.get "cache_read_input_tokens").as_u64).getD 0 }
        Except.ok { st with usage := newUsage }
    | none => Except.ok st
  else if event_type == "content_block_start" then
    let cb := parsed.get "content_block"
    match (cb.get "type").as_str with
    | some "text" =>
        Except.ok { st with content_blocks := st.content_blocks ++ [ContentBlock.text ""] }
    | some "tool_use" =>
        let idx := st.content_blocks.length
        let newBlock := ContentBlock.toolUse (((cb.get "id").as_str).getD "")
          (((cb.get "name").as_str).getD "") (Json.obj [])
        Except.ok { st with
          content_blocks := st.content_blocks ++ [newBlock],
          tool_input_bufs := bufsInsert st.tool_input_bufs idx "" }
    | _ => Except.ok st
  else if event_type == "content_block_delta" then
    let index := ((parsed.get "index").as_u64).getD 0
    let delta := parsed.get "delta"
    match (delta.get "type").as_str with
    | some "text_delta" =>
        match (delta.get "text").as_str with
        | some txt =>
            let newBlocks := updateAt st.content_blocks index (fun b =>
              match b with
              | ContentBlock.text t => ContentBlock.text (t ++ txt)
              | other => other)
            Except.ok { st with content_blocks := newBlocks }
        | none => Except.ok st
    | some "input_json_delta" =>
        match (delta.get "partial_json").as_str with
        | some pj =>
            Except.ok { st with tool_input_bufs := bufsAppend st.tool_input_bufs index pj }
        | none => Except.ok st
    | _ => Except.ok st
  else if event_type == "content_block_stop" then
    let index := ((parsed.get "index").as_u64).getD 0
    match st.tool_input_bufs.lookup index with
    | some json_str =>
        let newBufs := st.tool_input_bufs.filter (fun p => !(p.1 == index))
        let newBlocks :=
          match parseJson json_str with
          | some v =>
              updateAt st.content_blocks index (fun b =>
                match b with
                | ContentBlock.toolUse id name _ => ContentBlock.toolUse id name v
                | other => other)
          | none => st.content_blocks
        Except.ok { st with tool_input_bufs := newBufs, content_blocks := newBlocks }
    | none => Except.ok st
  else if event_type == "message_delta" then
    let st2 :=
      match ((parsed.get "delta").get "stop_reason").as_str with
      | some sr =>
          { st with stop_reason :=
              match sr with
              | "end_turn" => some StopReason.endTurn
              | "max_tokens" => some StopReason.maxTokens
              | "tool_use" => some StopReason.toolUse
              | _ => none }
      | none => st
    match parsed.getOpt "usage" with
    | some u =>
        let newUsage : Usage :=
          { st2.usage with output_tokens := ((u.get "output_tokens").as_u64).getD 0 }
        Except.ok { st2 with usage := newUsage }
    | none => Except.ok st2
  else if event_type == "error" then
    let err_type := (((parsed.get "error").get "type").as_str).getD "unknown"
    let err_msg := (((parsed.get "error").get "message").as_str).getD "unknown error"
    if err_type == "overloaded_error" || err_type == "api_error" ||
        err_type == "rate_limit_error" then
      Except.error (AgentError.streamTransient (err_type ++ ": " ++ err_msg))
    else
      Except.error (AgentError.streamParse (err_type ++ ": " ++ err_msg))
  else Except.ok st

/-- Run the event loop over the whole event list, stopping at the
first error event. -/
def processEvents (parseJson : String → Option Json) :
    DecoderState → List Json → Except AgentError DecoderState
  | st, [] => Except.ok st
  | st, e :: rest =>
      match processEvent parseJson st e with
      | Except.ok st2 => processEvents parseJson st2 rest
      | Except.error err => Except.error err

/-- parse_sse_stream at the event level, including the terminal check
of api.rs lines 337-343: a fully consumed stream with no stop_reason
fails with the StreamTransient error; otherwise the assembled triple
is returned. -/
def parse_sse_events (parseJson : String → Option Json) (events : List Json) :
    Except AgentError (List ContentBlock × StopReason × Usage) :=
  match processEvents parseJson initDecoderState events with
  | Except.error e => Except.error e
  | Except.ok st =>
      match st.stop_reason with
      | none => Except.error (AgentError.streamTransient
          "stream ended without stop_reason (connection drop)")
      | some sr => Except.ok (st.content_blocks, sr, st.usage)

/-- Oracle standing for serde_json::from_str in the decoder; the
terminal behaviour does not depend on it. -/
def noParse : String → Option Json := fun _ => none

/-- C9 counterexample: a fully consumed stream with no stop_reason
fails with StreamTransient, but its message is
"stream ended without stop_reason (connection drop)", not the
claim-quoted "stream ended without stop_reason". -/
theorem parse_sse_cex :
    parse_sse_events noParse [] =
      Except.error (AgentError.streamTransient
        "stream ended without stop_reason (connection drop)")
    ∧ parse_sse_events noParse [] ≠
      Except.error (AgentError.streamTransient "stream ended without stop_reason") := by
  refine ⟨rfl, ?_⟩
  intro h
  rw [show parse_sse_events noParse [] =
      Except.error (AgentError.streamTransient
        "stream ended without stop_reason (connection drop)") from rfl] at h
  injection h with h2
  injection h2 with h3
  exact absurd h3 (by decide)

/-- C9 (amended): when the event stream is fully consumed (no error
event aborted it) and no stop_reason is in the final state, the
decoder fails with StreamTransient("stream ended without stop_reason
(connection drop)") so the controller can retry; when a stop_reason
was seen, it returns the assembled (blocks, stop_reason, usage)
triple; an error event propagates its error. -/
theorem parse_sse_events_spec :
    ∀ (parseJson : String → Option Json) (events : List Json),
      (∀ st, processEvents parseJson initDecoderState events = Except.ok st →
        (st.stop_reason = none →
          parse_sse_events parseJson events =
            Except.error (AgentError.streamTransient
              "stream ended without stop_reason (connection drop)"))
        ∧ (∀ sr, st.stop_reason = some sr →
            parse_sse_events parseJson events = Except.ok (st.content_blocks, sr, st.usage)))
    ∧ (∀ e, processEvents parseJson initDecoderState events = Except.error e →
        parse_sse_events parseJson events = Except.error e) := by
  intro pj events
  constructor
  · intro st hok
    constructor
    · intro hnone
      simp only [parse_sse_events, hok, hnone]
    · intro sr hsr
      simp only [parse_sse_events, hok, hsr]
  · intro e herr
    simp only [parse_sse_events, herr]

/-- Witness for C9's amended theorem: a single message_delta event
carrying stop_reason end_turn yields the assembled triple, and the
empty stream yields the StreamTransient error. -/
theorem parse_sse_events_spec_witness :
    parse_sse_events noParse
        [Json.obj [("type", Json.str "message_delta"),
                   ("delta", Json.obj [("stop_reason", Json.str "end_turn")])]] =
      Except.ok ([], StopReason.endTurn, Usage.default)
    ∧ parse_sse_events noParse [] =
      Except.error (AgentError.streamTransient
        "stream ended without stop_reason (connection drop)") :=
  ⟨((parse_sse_events_spec noParse
        [Json.obj [("type", Json.str "message_delta"),
                   ("delta", Json.obj [("stop_reason", Json.str "end_turn")])]]).1
      ⟨[], some StopReason.endTurn, Usage.default, []⟩ rfl).2 StopReason.endTurn rfl,
   ((parse_sse_events_spec noParse []).1 initDecoderState rfl).1 rfl⟩
